import Mathlib

/-
Verification of the kettle leader-election library (kettle.go, v2/redis.go).

The Go code is embedded shallowly:
- machine effects (logging, process exit) become an explicit ProcState record
  threaded through the functions that perform them;
- the distributed lock is opaque; a single acquisition attempt is represented
  by its outcome, an Option String (none models Lock() returning nil, i.e.
  success; some e models the error e);
- the two goroutines spawned by Start, together with the two capacity-1
  channels masterQuit and masterDone, become a small-step transition system
  (Sys / Step / Reachable) whose steps are exactly the select branches and
  straight-line channel operations of the source;
- environment variables are a record of strings where the empty string means
  the variable is unset, matching the Getenv checks in the source.
-/

namespace KettleSpec

/-- The opaque callback context (Go: interface argument of StartInput.Master). -/
abbrev Ctx := Nat

/-- Embeds StartInput (kettle.go lines 163-168).  Master is nil-able in Go,
hence an Option; its result type Option String models the returned error
(none for a nil error).  The Quit and Done channels are modelled in the
transition system Sys below, not here. -/
structure StartInput where
  Master : Option (Ctx → Option String)
  MasterCtx : Ctx

/-- A default lock synthesized by New: redsync mutex with a key and an
expiry in seconds (kettle.go lines 219-222). -/
structure DefaultLock where
  key : String
  expirySeconds : Int
deriving DecidableEq, Repr

/-- The lock field of a Kettle: either a caller-supplied DistLocker
(opaque, identified by a tag) or the synthesized default mutex. -/
inductive Lock where
  | custom (tag : Nat)
  | default (l : DefaultLock)
deriving DecidableEq, Repr

/-- Embeds the redis.Pool value built by NewRedisPool (v2/redis.go lines
34-40).  The Dial closure is represented by the data it captures: the
address and dial options. -/
structure RedisPool where
  maxIdle : Nat
  maxActive : Nat
  wait : Bool
  idleTimeoutSeconds : Nat
  addr : String
  hasPassword : Bool
  connectTimeoutSeconds : Option Int
deriving DecidableEq, Repr

/-- Embeds the Kettle struct (kettle.go lines 51-62).  master keeps the
int32 representation of the source (1 master, 0 worker).  chansMade records
whether masterQuit and masterDone have been created by Start; the channel
contents themselves live in the transition system Sys. -/
structure Kettle where
  name : String
  verbose : Bool
  pool : Option RedisPool
  lock : Option Lock
  master : Int
  hostname : String
  startInput : Option StartInput
  chansMade : Bool
  tickTime : Int

/-- Machine effects of the logging helpers: whether os.Exit was reached and
how many log lines were emitted (only emitted when verbose). -/
structure ProcState where
  exited : Bool
  logLines : Nat
deriving DecidableEq, Repr

/-- Embeds infof (kettle.go lines 77-84): logs only when verbose, never exits. -/
def infof (s : Kettle) (p : ProcState) : ProcState :=
  if s.verbose then { p with logLines := p.logLines + 1 } else p

/-- Embeds errorf (kettle.go lines 95-102): logs only when verbose, never exits. -/
def errorf (s : Kettle) (p : ProcState) : ProcState :=
  if s.verbose then { p with logLines := p.logLines + 1 } else p

/-- Embeds fatalf (kettle.go lines 109-112): errorf then os.Exit(1). -/
def fatalf (s : Kettle) (p : ProcState) : ProcState :=
  let p := errorf s p
  { p with exited := true }

/-- Embeds isMaster (kettle.go lines 114-120): atomic load compared with 1. -/
def isMaster (s : Kettle) : Bool :=
  s.master == 1

/-- Embeds setMaster (kettle.go lines 122-131).  lockResult is the outcome
of the s.lock.Lock() call: some err for a non-nil error, none for success.
On error: log, store 0, return.  On success: log, store 1. -/
def setMaster (s : Kettle) (lockResult : Option String) (p : ProcState) :
    Kettle × ProcState :=
  match lockResult with
  | some _ =>
      let p := infof s p
      ({ s with master := 0 }, p)
  | none =>
      let p := infof s p
      ({ s with master := 1 }, p)

/-- Result of one work cycle (the work closure in doMaster, kettle.go lines
136-146): the kettle and proc state afterwards, and how many times the
Master callback was invoked during the cycle. -/
structure CycleOut where
  kettle : Kettle
  proc : ProcState
  masterCalls : Nat

/-- Embeds the work closure of doMaster (kettle.go lines 136-146).  si is
the StartInput stored by Start before doMaster runs (the closure reads
s.startInput, assigned at kettle.go line 175).  The callback result is
discarded, exactly as in the source where the returned error is ignored. -/
def work (si : StartInput) (s : Kettle) (p : ProcState) (lockResult : Option String) :
    CycleOut :=
  let sm := setMaster s lockResult p
  let s1 := sm.1
  let p1 := sm.2
  if isMaster s1 then
    match si.Master with
    | some f =>
        let _ignored := f si.MasterCtx
        ⟨s1, p1, 1⟩
    | none => ⟨s1, p1, 0⟩
  else ⟨s1, p1, 0⟩

/-- Runs a sequence of work cycles, one per acquisition outcome, exactly as
the doMaster loop does on the initial synchronous call and on each tick
(kettle.go lines 148-154).  Returns the final kettle, the final proc state
and the per-cycle list of Master-callback invocation counts. -/
def runCycles (si : StartInput) (s : Kettle) (p : ProcState) :
    List (Option String) → Kettle × ProcState × List Nat
  | [] => (s, p, [])
  | r :: rs =>
      let c := work si s p r
      let rest := runCycles si c.kettle c.proc rs
      (rest.1, rest.2.1, c.masterCalls :: rest.2.2)

/-- The kettle state after running the given cycles. -/
def kettleAfter (si : StartInput) (s : Kettle) (p : ProcState)
    (rs : List (Option String)) : Kettle :=
  (runCycles si s p rs).1

/-- The proc state after running the given cycles. -/
def procAfter (si : StartInput) (s : Kettle) (p : ProcState)
    (rs : List (Option String)) : ProcState :=
  (runCycles si s p rs).2.1

/-- The per-cycle Master-callback invocation counts. -/
def callsPerCycle (si : StartInput) (s : Kettle) (p : ProcState)
    (rs : List (Option String)) : List Nat :=
  (runCycles si s p rs).2.2

/-- Events of the straight-line prefix of doMaster (kettle.go lines
133-161), in source order: the ticker is created and armed (line 134,
time.NewTicker starts ticking on creation), the work closure is invoked
synchronously (line 148), then the goroutine holding the select loop that
consumes ticker and quit events is spawned (line 150). -/
inductive SetupEvent where
  | tickerArmed
  | firstWork
  | loopSpawned
deriving DecidableEq, Repr, BEq

/-- The setup trace of doMaster, read directly off kettle.go lines 134-150. -/
def doMasterSetup : List SetupEvent :=
  [SetupEvent.tickerArmed, SetupEvent.firstWork, SetupEvent.loopSpawned]

/-- Result of a call to Start (kettle.go lines 170-198): the kettle
afterwards, how many goroutines the call spawned, and the returned error. -/
structure StartOut where
  kettle : Kettle
  goroutinesSpawned : Nat
  result : Option String

/-- Embeds Start (kettle.go lines 170-198).  A nil input returns the error
at once, before any field assignment or go statement.  Otherwise Start
stores the input, mints the identity from the hostname and a fresh uuid
(both passed in here, as they come from the machine), creates the two
capacity-1 channels, spawns the termination watcher and the doMaster
goroutine, and returns nil. -/
def Start (s : Kettle) (input : Option StartInput) (hostname uuid : String) :
    StartOut :=
  match input with
  | none => ⟨s, 0, some "input cannot be nil"⟩
  | some si =>
      let s := { s with startInput := some si }
      let s := { s with hostname := hostname ++ "__" ++ uuid }
      let s := { s with chansMade := true }
      ⟨s, 2, none⟩

/-- Embeds the KettleOption values (kettle.go lines 27-49). -/
inductive KettleOption where
  | withName (v : String)
  | withVerbose (v : Bool)
  | withDistLocker (tag : Nat)
  | withTickTime (v : Int)
deriving DecidableEq, Repr

/-- Embeds the Apply methods of the four options (kettle.go lines 33, 38,
43, 48): each writes exactly one field of the builder. -/
def applyOpt (o : KettleOption) (s : Kettle) : Kettle :=
  match o with
  | .withName v => { s with name := v }
  | .withVerbose v => { s with verbose := v }
  | .withDistLocker tag => { s with lock := some (Lock.custom tag) }
  | .withTickTime v => { s with tickTime := v }

/-- The option loop of New (kettle.go lines 206-208). -/
def applyOpts (opts : List KettleOption) (s : Kettle) : Kettle :=
  match opts with
  | [] => s
  | o :: rest => applyOpts rest (applyOpt o s)

/-- The builder New starts from (kettle.go lines 201-204); every other
field has its Go zero value. -/
def baseKettle : Kettle :=
  { name := "kettle"
    verbose := false
    pool := none
    lock := none
    master := 0
    hostname := ""
    startInput := none
    chansMade := false
    tickTime := 30 }

/-- The environment read by NewRedisPool (v2/redis.go lines 13, 19, 24).
Go Getenv returns the empty string for an unset variable, so absence is
the empty string here too, matching the source comparisons. -/
structure Env where
  redisHost : String
  redisPassword : String
  redisTimeoutSeconds : String
deriving DecidableEq, Repr

/-- Value of a nonempty all-digit character list read left to right; none
when the list is empty or holds a non-digit. -/
def digitsToNat (l : List Char) : Option Nat :=
  match l with
  | [] => none
  | _ =>
      if l.all Char.isDigit then
        some (l.foldl (fun acc c => acc * 10 + (c.toNat - 48)) 0)
      else none

/-- Embeds strconv.Atoi as called at v2/redis.go line 26: optional sign,
then one or more decimal digits, rejecting anything else and values
outside the int64 range (Go returns ErrSyntax or ErrRange as an error). -/
def atoi (str : String) : Option Int :=
  let signed : Option Int :=
    match str.data with
    | '+' :: rest => (digitsToNat rest).map Int.ofNat
    | '-' :: rest => (digitsToNat rest).map (fun n => -(Int.ofNat n))
    | l => (digitsToNat l).map Int.ofNat
  match signed with
  | some n =>
      if n ≤ 9223372036854775807 ∧ -9223372036854775808 ≤ n then some n else none
  | none => none

/-- Embeds NewRedisPool (v2/redis.go lines 12-43).  REDIS_HOST empty is a
hard error; REDIS_PASSWORD, when non-empty, adds a dial option;
REDIS_TIMEOUT_SECONDS, when non-empty, must parse as an integer or its
parse error is returned; otherwise the pool literal of lines 34-40 is
built. -/
def NewRedisPool (env : Env) : Except String RedisPool :=
  if env.redisHost = "" then
    .error "REDIS_HOST env variable must be set"
  else
    if env.redisTimeoutSeconds = "" then
      .ok { maxIdle := 3, maxActive := 4, wait := true, idleTimeoutSeconds := 240,
            addr := env.redisHost, hasPassword := env.redisPassword ≠ "",
            connectTimeoutSeconds := none }
    else
      match atoi env.redisTimeoutSeconds with
      | none => .error "invalid integer"
      | some tmsec =>
          .ok { maxIdle := 3, maxActive := 4, wait := true, idleTimeoutSeconds := 240,
                addr := env.redisHost, hasPassword := env.redisPassword ≠ "",
                connectTimeoutSeconds := some tmsec }

/-- Embeds New (kettle.go lines 200-226): apply the options to the base
builder; when no lock was supplied, build the default redis pool (its
error propagates, with a nil Kettle) and synthesize the redsync mutex with
key name-distlocker and expiry tickTime seconds. -/
def New (opts : List KettleOption) (env : Env) : Except String Kettle :=
  let s := applyOpts opts baseKettle
  match s.lock with
  | none =>
      match NewRedisPool env with
      | .error e => .error e
      | .ok pool =>
          .ok { s with
                pool := some pool
                lock := some (Lock.default
                  { key := s.name ++ "-distlocker", expirySeconds := s.tickTime }) }
  | some _ => .ok s

/-! ## The shutdown handshake as a transition system

Start spawns two concurrent tasks: the termination watcher (kettle.go
lines 183-193) and the doMaster select loop (lines 150-160).  They share
the capacity-1 channels masterQuit and masterDone.  Sys is their joint
state; Step has one constructor per atomic action a task can take.  A
buffered send on an empty capacity-1 channel never blocks, so a receive
followed by such a send is a single straight-line action of one task. -/

/-- Program counter of the termination watcher (kettle.go lines 183-193):
blocked on in.Quit, then blocked on masterDone (after sending masterQuit),
then finished (after sending on in.Done). -/
inductive WSt where
  | waitQuit
  | waitDone
  | finished
deriving DecidableEq, Repr

/-- Program counter of the doMaster select loop (kettle.go lines 150-160):
looping over the select, or returned after acknowledging on masterDone. -/
inductive ESt where
  | looping
  | stopped
deriving DecidableEq, Repr

/-- Joint state of the two tasks and the channels.  mq and md say whether
the capacity-1 buffers masterQuit and masterDone hold a value; quitPending
says the external quit signal has been sent and not yet consumed;
doneCount counts sends on the external Done channel; workCount counts
completed work cycles of the loop. -/
structure Sys where
  w : WSt
  e : ESt
  mq : Bool
  md : Bool
  quitPending : Bool
  doneCount : Nat
  workCount : Nat
deriving DecidableEq, Repr

/-- State right after quit has been signaled externally: watcher blocked on
quit, loop running, both internal channels empty, nothing done yet. -/
def Sys.init : Sys :=
  ⟨WSt.waitQuit, ESt.looping, false, false, true, 0, 0⟩

/-- One atomic action of either task, read off the source:
- tick: the select takes the masterTicker.C branch and runs a work cycle
  (kettle.go lines 153-154);
- engineStop: the select takes the masterQuit branch, sends on masterDone
  and returns (lines 155-157);
- watcherQuit: the watcher receives the quit signal and sends on the empty
  capacity-1 masterQuit buffer (lines 184-188);
- watcherDone: the watcher receives the masterDone acknowledgement and
  sends on in.Done (lines 189-192). -/
inductive Step : Sys → Sys → Prop where
  | tick (s : Sys) (he : s.e = ESt.looping) :
      Step s { s with workCount := s.workCount + 1 }
  | engineStop (s : Sys) (he : s.e = ESt.looping) (hm : s.mq = true) :
      Step s { s with e := ESt.stopped, mq := false, md := true }
  | watcherQuit (s : Sys) (hw : s.w = WSt.waitQuit) (hq : s.quitPending = true) :
      Step s { s with w := WSt.waitDone, quitPending := false, mq := true }
  | watcherDone (s : Sys) (hw : s.w = WSt.waitDone) (hm : s.md = true) :
      Step s { s with w := WSt.finished, md := false, doneCount := s.doneCount + 1 }

/-- States reachable from Sys.init by any interleaving of the two tasks. -/
inductive Reachable : Sys → Prop where
  | init : Reachable Sys.init
  | step {s t : Sys} : Reachable s → Step s t → Reachable t

/-- Inductive invariant of the handshake. -/
def Inv (s : Sys) : Prop :=
  s.doneCount ≤ 1
  ∧ (s.w = WSt.finished → s.doneCount = 1 ∧ s.e = ESt.stopped)
  ∧ (s.w ≠ WSt.finished → s.doneCount = 0)
  ∧ (s.e = ESt.stopped → s.w ≠ WSt.waitQuit)
  ∧ (s.md = true → s.e = ESt.stopped ∧ s.w = WSt.waitDone)
  ∧ (s.mq = true → s.w ≠ WSt.waitQuit ∧ s.e = ESt.looping)
  ∧ (s.quitPending = true → s.w = WSt.waitQuit)

/-- Whether the option list contains a WithDistLocker option. -/
def hasLockOpt (opts : List KettleOption) : Bool :=
  opts.any fun o =>
    match o with
    | .withDistLocker _ => true
    | _ => false

/-- Value of the last WithName option of the list, if any. -/
def lastName : List KettleOption → Option String
  | [] => none
  | KettleOption.withName v :: rest => some ((lastName rest).getD v)
  | _ :: rest => lastName rest

/-- Value of the last WithVerbose option of the list, if any. -/
def lastVerbose : List KettleOption → Option Bool
  | [] => none
  | KettleOption.withVerbose v :: rest => some ((lastVerbose rest).getD v)
  | _ :: rest => lastVerbose rest

/-- Value of the last WithTickTime option of the list, if any. -/
def lastTick : List KettleOption → Option Int
  | [] => none
  | KettleOption.withTickTime v :: rest => some ((lastTick rest).getD v)
  | _ :: rest => lastTick rest

/-- Lock set by the last WithDistLocker option of the list, if any. -/
def lastLock : List KettleOption → Option Lock
  | [] => none
  | KettleOption.withDistLocker tag :: rest =>
      some ((lastLock rest).getD (Lock.custom tag))
  | _ :: rest => lastLock rest

/-- A concrete callback used in closed instantiations: always reports an
error, exercising the discarded-error path. -/
def failingCallback : Ctx → Option String :=
  fun _ => some "callback failure"

/-- A concrete start input whose callback is failingCallback. -/
def sampleInput : StartInput :=
  ⟨some failingCallback, 0⟩

/-- A concrete start input with a nil Master callback. -/
def nilCallbackInput : StartInput :=
  ⟨none, 0⟩

/-- The initial proc state: not exited, nothing logged. -/
def ProcState.init : ProcState :=
  ⟨false, 0⟩

/-- A concrete environment with only the required address set. -/
def sampleEnv : Env :=
  ⟨"localhost:6379", "", ""⟩

/-- The pool NewRedisPool builds from sampleEnv. -/
def samplePool : RedisPool :=
  { maxIdle := 3, maxActive := 4, wait := true, idleTimeoutSeconds := 240,
    addr := "localhost:6379", hasPassword := false,
    connectTimeoutSeconds := none }

/-- A concrete environment with no variables set. -/
def emptyEnv : Env :=
  ⟨"", "", ""⟩

/-- A concrete environment whose timeout variable is not an integer. -/
def badTimeoutEnv : Env :=
  ⟨"localhost:6379", "", "abc"⟩

/-! ## Helper lemmas about one work cycle -/

theorem setMaster_master_eq (s : Kettle) (r : Option String) (p : ProcState) :
    (setMaster s r p).1.master = if r.isNone then 1 else 0 := by
  cases r <;> simp [setMaster]

theorem isMaster_setMaster (s : Kettle) (r : Option String) (p : ProcState) :
    isMaster (setMaster s r p).1 = r.isNone := by
  cases r <;> simp [setMaster, isMaster]

theorem setMaster_fields (s : Kettle) (r : Option String) (p : ProcState) :
    (setMaster s r p).1.name = s.name ∧ (setMaster s r p).1.startInput = s.startInput := by
  cases r <;> simp [setMaster]

theorem infof_exited (s : Kettle) (p : ProcState) :
    (infof s p).exited = p.exited := by
  unfold infof
  split <;> rfl

theorem setMaster_exited (s : Kettle) (r : Option String) (p : ProcState) :
    (setMaster s r p).2.exited = p.exited := by
  cases r <;> simp [setMaster, infof_exited]

theorem work_kettle_eq (si : StartInput) (s : Kettle) (p : ProcState)
    (r : Option String) : (work si s p r).kettle = (setMaster s r p).1 := by
  unfold work
  cases h : si.Master <;> simp only [h] <;> split <;> rfl

theorem work_proc_eq (si : StartInput) (s : Kettle) (p : ProcState)
    (r : Option String) : (work si s p r).proc = (setMaster s r p).2 := by
  unfold work
  cases h : si.Master <;> simp only [h] <;> split <;> rfl

theorem work_calls_some (si : StartInput) (f : Ctx → Option String)
    (hf : si.Master = some f) (s : Kettle) (p : ProcState) (r : Option String) :
    (work si s p r).masterCalls = if r.isNone then 1 else 0 := by
  unfold work
  simp only [hf]
  cases r <;> simp [isMaster_setMaster]

theorem work_calls_none (si : StartInput) (hf : si.Master = none)
    (s : Kettle) (p : ProcState) (r : Option String) :
    (work si s p r).masterCalls = 0 := by
  unfold work
  simp only [hf]
  split <;> rfl

/-! ## Helper lemmas about cycle sequences -/

theorem kettleAfter_append_single (si : StartInput) (s : Kettle) (p : ProcState)
    (pre : List (Option String)) (r : Option String) :
    isMaster (kettleAfter si s p (pre ++ [r])) = r.isNone := by
  induction pre generalizing s p with
  | nil =>
      simp only [List.nil_append, kettleAfter, runCycles]
      rw [work_kettle_eq, isMaster_setMaster]
  | cons r0 rest ih =>
      simp only [List.cons_append, kettleAfter, runCycles]
      exact ih _ _

theorem procAfter_exited (si : StartInput) (s : Kettle) (p : ProcState)
    (rs : List (Option String)) : (procAfter si s p rs).exited = p.exited := by
  induction rs generalizing s p with
  | nil => rfl
  | cons r rest ih =>
      have h1 : (procAfter si (work si s p r).kettle (work si s p r).proc rest).exited
          = (work si s p r).proc.exited := ih _ _
      have h2 : (work si s p r).proc.exited = p.exited := by
        rw [work_proc_eq, setMaster_exited]
      simpa only [procAfter, runCycles] using h1.trans h2

theorem callsPerCycle_some (si : StartInput) (f : Ctx → Option String)
    (hf : si.Master = some f) (s : Kettle) (p : ProcState)
    (rs : List (Option String)) :
    callsPerCycle si s p rs = rs.map (fun r => if r.isNone then 1 else 0) := by
  induction rs generalizing s p with
  | nil => rfl
  | cons r rest ih =>
      simp only [callsPerCycle, runCycles, List.map, List.cons.injEq]
      exact ⟨work_calls_some si f hf s p r, ih _ _⟩

theorem callsPerCycle_none (si : StartInput) (hf : si.Master = none)
    (s : Kettle) (p : ProcState) (rs : List (Option String)) :
    callsPerCycle si s p rs = rs.map (fun _ => 0) := by
  induction rs generalizing s p with
  | nil => rfl
  | cons r rest ih =>
      simp only [callsPerCycle, runCycles, List.map, List.cons.injEq]
      exact ⟨work_calls_none si hf s p r, ih _ _⟩

theorem runCycles_state_indep (si si2 : StartInput) (s : Kettle) (p : ProcState)
    (rs : List (Option String)) :
    (runCycles si s p rs).1 = (runCycles si2 s p rs).1
    ∧ (runCycles si s p rs).2.1 = (runCycles si2 s p rs).2.1 := by
  induction rs generalizing s p with
  | nil => exact ⟨rfl, rfl⟩
  | cons r rest ih =>
      have hk : (work si s p r).kettle = (work si2 s p r).kettle := by
        rw [work_kettle_eq, work_kettle_eq]
      have hp : (work si s p r).proc = (work si2 s p r).proc := by
        rw [work_proc_eq, work_proc_eq]
      simp only [runCycles]
      rw [hk, hp]
      exact ih _ _

/-! ## The election-cycle claims -/

/-- Claim C1: for every sequence of lock-acquisition outcomes, after each
work cycle completes the master flag (read via isMaster) equals the
boolean result of that cycle: setMaster stores 1 when Lock returns nil and
0 when it returns an error, so the flag is never stale by more than one
cycle. -/
theorem C1_master_flag_tracks_cycle_outcome (si : StartInput) (s : Kettle)
    (p : ProcState) (pre : List (Option String)) (r : Option String) :
    isMaster (kettleAfter si s p (pre ++ [r])) = r.isNone
    ∧ (setMaster s none p).1.master = 1
    ∧ ∀ e, (setMaster s (some e) p).1.master = 0 :=
  ⟨kettleAfter_append_single si s p pre r, rfl, fun _ => rfl⟩

/-- Claim C2: in every work cycle the Master callback is invoked exactly
once when that cycle acquisition succeeded and zero times when it failed,
and the error value the callback returns alters neither the kettle state,
nor the proc state, nor whether the callback runs in later cycles. -/
theorem C2_callback_exactly_once_per_success (si : StartInput)
    (f : Ctx → Option String) (hf : si.Master = some f) (s : Kettle)
    (p : ProcState) (rs : List (Option String)) :
    callsPerCycle si s p rs = rs.map (fun r => if r.isNone then 1 else 0)
    ∧ ∀ g : Ctx → Option String,
        kettleAfter { si with Master := some g } s p rs = kettleAfter si s p rs
        ∧ procAfter { si with Master := some g } s p rs = procAfter si s p rs
        ∧ callsPerCycle { si with Master := some g } s p rs
            = callsPerCycle si s p rs := by
  refine ⟨callsPerCycle_some si f hf s p rs, fun g => ?_⟩
  refine ⟨(runCycles_state_indep _ si s p rs).1,
          (runCycles_state_indep _ si s p rs).2, ?_⟩
  rw [callsPerCycle_some _ g rfl s p rs, callsPerCycle_some si f hf s p rs]

/-- Closed instance of C2 at a concrete input: a three-cycle run with a
callback that always errors invokes it on exactly the successful cycles. -/
theorem C2_callback_exactly_once_per_success_witness :
    sampleInput.Master = some failingCallback
    ∧ callsPerCycle sampleInput baseKettle ProcState.init
        [none, some "lock held elsewhere", none] = [1, 0, 1] :=
  ⟨rfl,
   ((C2_callback_exactly_once_per_success sampleInput failingCallback rfl
      baseKettle ProcState.init [none, some "lock held elsewhere", none]).1).trans
     (by rfl)⟩

/-- Claim C4: Start with a nil input returns an error immediately, spawns
no goroutines and leaves every kettle field unchanged; the nil check is
the only validation, so every non-nil input makes Start return nil. -/
theorem C4_start_nil_input_only_validation (s : Kettle) (h u : String) :
    (Start s none h u).kettle = s
    ∧ (Start s none h u).goroutinesSpawned = 0
    ∧ (Start s none h u).result = some "input cannot be nil"
    ∧ ∀ si, (Start s (some si) h u).result = none :=
  ⟨rfl, rfl, rfl, fun _ => rfl⟩

/-- Claim C5 as stated fails on the source: doMaster creates and arms the
ticker (time.NewTicker, line 134) before the first synchronous work call
(line 148), so the first acquisition attempt does not happen before the
ticker is armed. -/
theorem C5_counterexample :
    ¬ (doMasterSetup.indexOf SetupEvent.firstWork
        < doMasterSetup.indexOf SetupEvent.tickerArmed) := by
  decide

/-- Claim C5 amended: the ticker is armed first, and the first acquisition
attempt (the synchronous work call) happens before the goroutine holding
the select loop that consumes tick and quit events is spawned, so the
first attempt is never preempted by a tick or a quit and never waits a
full interval. -/
theorem C5_first_attempt_before_select_loop :
    doMasterSetup.indexOf SetupEvent.tickerArmed
      < doMasterSetup.indexOf SetupEvent.firstWork
    ∧ doMasterSetup.indexOf SetupEvent.firstWork
      < doMasterSetup.indexOf SetupEvent.loopSpawned := by
  decide

/-- Claim C6: for every error returned by the lock acquisition, setMaster
returns normally with the flag at 0; the failure never escapes the
election flow as an error and never reaches the process-terminating path,
which only the fatal helpers take. -/
theorem C6_lock_errors_never_fatal (si : StartInput) (s : Kettle)
    (p : ProcState) (e : String) (rs : List (Option String)) :
    (setMaster s (some e) p).1.master = 0
    ∧ (setMaster s (some e) p).2.exited = p.exited
    ∧ (procAfter si s p rs).exited = p.exited
    ∧ (fatalf s p).exited = true :=
  ⟨rfl, setMaster_exited s (some e) p, procAfter_exited si s p rs, rfl⟩

/-- Claim C10: with a nil Master callback, a cycle whose acquisition
succeeds still sets the flag to 1 and completes with zero callback
invocations, and later cycles keep tracking acquisition outcomes. -/
theorem C10_nil_callback_is_safe (si : StartInput) (hM : si.Master = none)
    (s : Kettle) (p : ProcState) (rs : List (Option String)) :
    isMaster (work si s p none).kettle = true
    ∧ (work si s p none).masterCalls = 0
    ∧ callsPerCycle si s p rs = rs.map (fun _ => 0)
    ∧ ∀ pre r, isMaster (kettleAfter si s p (pre ++ [r])) = r.isNone := by
  refine ⟨?_, work_calls_none si hM s p none, callsPerCycle_none si hM s p rs,
    fun pre r => kettleAfter_append_single si s p pre r⟩
  rw [work_kettle_eq, isMaster_setMaster]
  rfl

/-! ## The shutdown-handshake claims -/

theorem inv_init : Inv Sys.init := by
  simp only [Inv]
  decide

theorem inv_step {s t : Sys} (hs : Inv s) (st : Step s t) : Inv t := by
  obtain ⟨h1, h2, h3, h4, h5, h6, h7⟩ := hs
  cases st with
  | tick he =>
      exact ⟨h1, h2, h3, h4, h5, h6, h7⟩
  | engineStop he hm =>
      have hwq : s.w ≠ WSt.waitQuit := (h6 hm).1
      have hwd : s.w = WSt.waitDone := by
        cases hcw : s.w with
        | waitQuit => exact absurd hcw hwq
        | waitDone => rfl
        | finished =>
            have h := (h2 hcw).2
            rw [he] at h
            exact ESt.noConfusion h
      have hqp : s.quitPending = false := by
        cases hq : s.quitPending with
        | false => rfl
        | true => exact absurd (h7 hq) hwq
      exact ⟨h1,
        fun hfin => absurd (hwd.symm.trans hfin) (by decide),
        h3,
        fun _ => hwq,
        fun _ => ⟨rfl, hwd⟩,
        fun hmq => Bool.noConfusion hmq,
        fun hq => Bool.noConfusion (hqp.symm.trans hq)⟩
  | watcherQuit hw hq =>
      have hel : s.e = ESt.looping := by
        cases hce : s.e with
        | looping => rfl
        | stopped => exact absurd hw (h4 hce)
      have hmd : s.md = false := by
        cases hcm : s.md with
        | false => rfl
        | true =>
            have h := (h5 hcm).2
            rw [hw] at h
            exact WSt.noConfusion h
      have hdc : s.doneCount = 0 := by
        refine h3 ?_
        rw [hw]
        decide
      exact ⟨h1,
        fun hfin => WSt.noConfusion hfin,
        fun _ => hdc,
        fun _ hh => WSt.noConfusion hh,
        fun h5m => Bool.noConfusion (hmd.symm.trans h5m),
        fun _ => ⟨fun hh => WSt.noConfusion hh, hel⟩,
        fun hq7 => Bool.noConfusion hq7⟩
  | watcherDone hw hm =>
      have hes : s.e = ESt.stopped := (h5 hm).1
      have hdc : s.doneCount = 0 := by
        refine h3 ?_
        rw [hw]
        decide
      have hmq : s.mq = false := by
        cases hcm : s.mq with
        | false => rfl
        | true =>
            have h := (h6 hcm).2
            rw [hes] at h
            exact ESt.noConfusion h
      have hqp : s.quitPending = false := by
        cases hq : s.quitPending with
        | false => rfl
        | true =>
            have h := h7 hq
            rw [hw] at h
            exact WSt.noConfusion h
      exact ⟨by show s.doneCount + 1 ≤ 1; omega,
        fun _ => ⟨by show s.doneCount + 1 = 1; omega, hes⟩,
        fun hne => absurd rfl hne,
        fun _ hh => WSt.noConfusion hh,
        fun h5m => Bool.noConfusion h5m,
        fun h6m => Bool.noConfusion (hmq.symm.trans h6m),
        fun hq7 => Bool.noConfusion (hqp.symm.trans hq7)⟩

theorem inv_reachable {s : Sys} (h : Reachable s) : Inv s := by
  induction h with
  | init => exact inv_init
  | step hr st ih => exact inv_step ih st

theorem step_from_stopped {s t : Sys} (st : Step s t) (he : s.e = ESt.stopped) :
    t.e = ESt.stopped ∧ t.workCount = s.workCount := by
  cases st with
  | tick h =>
      rw [h] at he
      exact ESt.noConfusion he
  | engineStop h hm =>
      rw [h] at he
      exact ESt.noConfusion he
  | watcherQuit hw hq => exact ⟨he, rfl⟩
  | watcherDone hw hm => exact ⟨he, rfl⟩

theorem done_run_exists : ∃ u, Reachable u ∧ u.doneCount = 1 := by
  refine ⟨_, Reachable.step (Reachable.step (Reachable.step Reachable.init
      (Step.watcherQuit Sys.init rfl rfl))
      (Step.engineStop _ rfl rfl))
      (Step.watcherDone _ rfl rfl), rfl⟩

/-- Claim C3: after quit is signaled the events keep the strict order
masterQuit send, then the masterDone acknowledgement, then a single Done
send.  In every reachable state of the handshake system, Done has fired at
most once; if it fired, the select loop has already stopped (no cycle can
be in flight) and the watcher is finished; the loop only stops after the
masterQuit send; once stopped, no step runs another work cycle; and a
reachable state completes the handshake with exactly one Done. -/
theorem C3_shutdown_handshake (s : Sys) (h : Reachable s) :
    s.doneCount ≤ 1
    ∧ (1 ≤ s.doneCount → s.e = ESt.stopped ∧ s.w = WSt.finished)
    ∧ (s.e = ESt.stopped → s.w ≠ WSt.waitQuit)
    ∧ (∀ t, Step s t → s.e = ESt.stopped →
        t.e = ESt.stopped ∧ t.workCount = s.workCount)
    ∧ ∃ u, Reachable u ∧ u.doneCount = 1 := by
  obtain ⟨h1, h2, h3, h4, h5, h6, h7⟩ := inv_reachable h
  refine ⟨h1, ?_, h4, fun t st he => step_from_stopped st he, done_run_exists⟩
  intro hdc
  have hw : s.w = WSt.finished := by
    cases hcw : s.w with
    | finished => rfl
    | waitQuit =>
        have h0 := h3 (by rw [hcw]; decide)
        omega
    | waitDone =>
        have h0 := h3 (by rw [hcw]; decide)
        omega
  exact ⟨(h2 hw).2, hw⟩

/-- Closed instance of C3 at the initial state of the handshake system. -/
theorem C3_shutdown_handshake_witness :
    Reachable Sys.init ∧ Sys.init.doneCount ≤ 1 :=
  ⟨Reachable.init, (C3_shutdown_handshake Sys.init Reachable.init).1⟩

/-- Closed instance of C10 at a concrete input: the nil-callback input with
a successful acquisition yields the master flag with no invocation. -/
theorem C10_nil_callback_is_safe_witness :
    nilCallbackInput.Master = none
    ∧ isMaster (work nilCallbackInput baseKettle ProcState.init none).kettle = true
    ∧ (work nilCallbackInput baseKettle ProcState.init none).masterCalls = 0 := by
  refine ⟨rfl, ?_, ?_⟩
  · exact (C10_nil_callback_is_safe nilCallbackInput rfl baseKettle
      ProcState.init []).1
  · exact (C10_nil_callback_is_safe nilCallbackInput rfl baseKettle
      ProcState.init []).2.1

/-! ## The configuration claims -/

theorem applyOpts_name (opts : List KettleOption) (s : Kettle) :
    (applyOpts opts s).name = (lastName opts).getD s.name := by
  induction opts generalizing s with
  | nil => rfl
  | cons o rest ih => cases o <;> simp [applyOpts, applyOpt, lastName, ih]

theorem applyOpts_verbose (opts : List KettleOption) (s : Kettle) :
    (applyOpts opts s).verbose = (lastVerbose opts).getD s.verbose := by
  induction opts generalizing s with
  | nil => rfl
  | cons o rest ih => cases o <;> simp [applyOpts, applyOpt, lastVerbose, ih]

theorem applyOpts_tick (opts : List KettleOption) (s : Kettle) :
    (applyOpts opts s).tickTime = (lastTick opts).getD s.tickTime := by
  induction opts generalizing s with
  | nil => rfl
  | cons o rest ih => cases o <;> simp [applyOpts, applyOpt, lastTick, ih]

theorem applyOpts_lock (opts : List KettleOption) (s : Kettle) :
    (applyOpts opts s).lock = (lastLock opts).elim s.lock some := by
  induction opts generalizing s with
  | nil => rfl
  | cons o rest ih =>
      cases o with
      | withName v => simp [applyOpts, applyOpt, lastLock, ih]
      | withVerbose v => simp [applyOpts, applyOpt, lastLock, ih]
      | withTickTime v => simp [applyOpts, applyOpt, lastLock, ih]
      | withDistLocker t =>
          simp only [applyOpts, applyOpt, lastLock, ih]
          cases h : lastLock rest <;> simp

theorem lastLock_none (opts : List KettleOption) (h : hasLockOpt opts = false) :
    lastLock opts = none := by
  induction opts with
  | nil => rfl
  | cons o rest ih =>
      cases o with
      | withName v => exact ih (by simpa [hasLockOpt] using h)
      | withVerbose v => exact ih (by simpa [hasLockOpt] using h)
      | withTickTime v => exact ih (by simpa [hasLockOpt] using h)
      | withDistLocker t => simp [hasLockOpt] at h

/-- Claim C9: each option writes only its own field (the full record
equations), options of one class are last-writer-wins in argument order,
and with no options the builder keeps name kettle and tickTime 30. -/
theorem C9_option_algebra (k : Kettle) (opts : List KettleOption) :
    (applyOpts [] baseKettle).name = "kettle"
    ∧ (applyOpts [] baseKettle).tickTime = 30
    ∧ (∀ v, applyOpt (KettleOption.withName v) k = { k with name := v })
    ∧ (∀ v, applyOpt (KettleOption.withVerbose v) k = { k with verbose := v })
    ∧ (∀ t, applyOpt (KettleOption.withDistLocker t) k
        = { k with lock := some (Lock.custom t) })
    ∧ (∀ v, applyOpt (KettleOption.withTickTime v) k = { k with tickTime := v })
    ∧ (applyOpts opts k).name = (lastName opts).getD k.name
    ∧ (applyOpts opts k).verbose = (lastVerbose opts).getD k.verbose
    ∧ (applyOpts opts k).tickTime = (lastTick opts).getD k.tickTime
    ∧ (applyOpts opts k).lock = (lastLock opts).elim k.lock some :=
  ⟨rfl, rfl, fun _ => rfl, fun _ => rfl, fun _ => rfl, fun _ => rfl,
   applyOpts_name opts k, applyOpts_verbose opts k, applyOpts_tick opts k,
   applyOpts_lock opts k⟩

/-- Claim C7: when no DistLocker option is supplied, New builds the default
backend pool and then a default lock whose key is the node name followed
by -distlocker and whose expiry equals tickTime seconds; when a
DistLocker option is supplied, the default backend construction is
bypassed entirely and New cannot fail. -/
theorem C7_default_lock_synthesis (opts : List KettleOption) (env : Env)
    (pool : RedisPool) (hno : hasLockOpt opts = false)
    (hpool : NewRedisPool env = Except.ok pool) :
    New opts env = Except.ok
      { applyOpts opts baseKettle with
        pool := some pool
        lock := some (Lock.default
          { key := (applyOpts opts baseKettle).name ++ "-distlocker"
            expirySeconds := (applyOpts opts baseKettle).tickTime }) }
    ∧ ∀ (opts2 : List KettleOption) (env2 : Env) (l : Lock),
        (applyOpts opts2 baseKettle).lock = some l →
        New opts2 env2 = Except.ok (applyOpts opts2 baseKettle) := by
  constructor
  · have hlock : (applyOpts opts baseKettle).lock = none := by
      rw [applyOpts_lock opts baseKettle, lastLock_none opts hno]
      rfl
    simp only [New, hlock, hpool]
  · intro opts2 env2 l hl
    simp only [New, hl]

/-- Closed instance of C7 at a concrete input: one tick-time option, the
sample environment and its pool. -/
theorem C7_default_lock_synthesis_witness :
    hasLockOpt [KettleOption.withTickTime 5] = false
    ∧ NewRedisPool sampleEnv = Except.ok samplePool
    ∧ New [KettleOption.withTickTime 5] sampleEnv = Except.ok
        { applyOpts [KettleOption.withTickTime 5] baseKettle with
          pool := some samplePool
          lock := some (Lock.default
            { key := (applyOpts [KettleOption.withTickTime 5] baseKettle).name
                ++ "-distlocker"
              expirySeconds :=
                (applyOpts [KettleOption.withTickTime 5] baseKettle).tickTime }) } :=
  ⟨rfl, rfl,
   (C7_default_lock_synthesis [KettleOption.withTickTime 5] sampleEnv
      samplePool rfl rfl).1⟩

/-- Claim C8: default backend construction fails when the required address
variable is absent, and when the optional timeout variable is present but
not a parsable integer; in both cases New returns that error synchronously
with no Kettle, rather than deferring the failure into the election loop. -/
theorem C8_backend_construction_errors (env : Env) (opts : List KettleOption) :
    (env.redisHost = "" →
      NewRedisPool env = Except.error "REDIS_HOST env variable must be set")
    ∧ (env.redisHost ≠ "" → env.redisTimeoutSeconds ≠ "" →
        atoi env.redisTimeoutSeconds = none →
        NewRedisPool env = Except.error "invalid integer")
    ∧ (∀ e, hasLockOpt opts = false → NewRedisPool env = Except.error e →
        New opts env = Except.error e) := by
  refine ⟨?_, ?_, ?_⟩
  · intro h
    simp [NewRedisPool, h]
  · intro h1 h2 h3
    simp only [NewRedisPool, if_neg h1, if_neg h2, h3]
  · intro e hno herr
    have hlock : (applyOpts opts baseKettle).lock = none := by
      rw [applyOpts_lock opts baseKettle, lastLock_none opts hno]
      rfl
    simp only [New, hlock, herr]

/-- Closed instance of C8 at concrete inputs: the empty environment and the
environment with a non-numeric timeout. -/
theorem C8_backend_construction_errors_witness :
    NewRedisPool emptyEnv = Except.error "REDIS_HOST env variable must be set"
    ∧ NewRedisPool badTimeoutEnv = Except.error "invalid integer"
    ∧ New [] emptyEnv = Except.error "REDIS_HOST env variable must be set" :=
  ⟨(C8_backend_construction_errors emptyEnv []).1 rfl,
   (C8_backend_construction_errors badTimeoutEnv []).2.1 (by decide) (by decide) rfl,
   (C8_backend_construction_errors emptyEnv []).2.2 _ rfl
     ((C8_backend_construction_errors emptyEnv []).1 rfl)⟩

end KettleSpec
